import Mathlib

/-!
Verification development for the `linkedin_scraper` repository
(`linkedin-scraper/main.py` and `linkedin-scraper/routes.py`).

The repository builds one LinkedIn job-search URL from a title and a
location, hands it to an external crawler, discovers job-detail links on
the results page, extracts three text fields per job-detail page, and
exports the records to a CSV file.  This file gives a shallow embedding
of that logic and proves the specified properties about it.
-/

/-! ### Whitespace normalization (`routes.py`, `re.sub(r'[\s\n]+', '', s)`)

Python strings are sequences of Unicode code points, embedded here as
`List Char` / `String`.  The character class `[\s\n]` of the pattern
matches exactly Python's regex whitespace set (the `\n` inside the class
is redundant), which for `str` patterns is the set of code points with
`str.isspace() = True`. -/

/-- The set of code points matched by Python's regex class `\s` on `str`
patterns (the code points for which `str.isspace()` holds). -/
def isPyWs (c : Char) : Bool :=
  decide (c.toNat ∈ ([9, 10, 11, 12, 13, 28, 29, 30, 31, 32, 133, 160, 5760,
    8192, 8193, 8194, 8195, 8196, 8197, 8198, 8199, 8200, 8201, 8202,
    8232, 8233, 8239, 8287, 12288] : List Nat))

theorem length_dropWhile_le (p : Char → Bool) (l : List Char) :
    (l.dropWhile p).length ≤ l.length := by
  induction l with
  | nil => simp
  | cons a l ih =>
    rw [List.dropWhile_cons]
    split
    · exact Nat.le_succ_of_le ih
    · simp

/-- Embedding of `re.sub(r'[\s\n]+', '', s)` on a list of code points: the scanner
walks the string; at a whitespace character it consumes the maximal run
of whitespace (the greedy `+` match) and emits the empty replacement,
otherwise it copies the character. -/
def reSubWsList : List Char → List Char
  | [] => []
  | c :: cs =>
    if isPyWs c then reSubWsList (cs.dropWhile isPyWs)
    else c :: reSubWsList cs
termination_by l => l.length
decreasing_by
  · exact Nat.lt_succ_of_le (length_dropWhile_le isPyWs cs)
  · simp

/-- The normalization `re.sub(r'[\s\n]+', '', s)` applied to a Python
string, as in `listing_handler` of `routes.py`. -/
def reSubWs (s : String) : String :=
  ⟨reSubWsList s.data⟩

/-- Splits a list of code points into its maximal runs of
non-whitespace characters, dropping the whitespace; `acc` is the
(reversed) run currently being collected. -/
def nonWsRunsAux : List Char → List Char → List (List Char)
  | [], acc => if acc.isEmpty then [] else [acc.reverse]
  | c :: cs, acc =>
    if isPyWs c then
      if acc.isEmpty then nonWsRunsAux cs [] else acc.reverse :: nonWsRunsAux cs []
    else nonWsRunsAux cs (c :: acc)

/-- The maximal non-whitespace runs of a list of code points. -/
def nonWsRuns (l : List Char) : List (List Char) :=
  nonWsRunsAux l []

theorem nonWsRunsAux_join (l : List Char) :
    ∀ acc, (nonWsRunsAux l acc).flatten = acc.reverse ++ l.filter (fun c => !(isPyWs c)) := by
  induction l with
  | nil =>
    intro acc
    by_cases h : acc.isEmpty
    · simp [nonWsRunsAux, h, List.isEmpty_iff.mp h]
    · simp [nonWsRunsAux, h]
  | cons c cs ih =>
    intro acc
    by_cases hc : isPyWs c
    · by_cases h : acc.isEmpty
      · simp [nonWsRunsAux, hc, h, ih, List.isEmpty_iff.mp h]
      · simp [nonWsRunsAux, hc, h, ih]
    · simp [nonWsRunsAux, hc, ih]

/-- Since the replacement is empty, removing maximal whitespace runs is
removing every whitespace character. -/
theorem filter_dropWhile_ws (l : List Char) :
    (l.dropWhile isPyWs).filter (fun c => !(isPyWs c)) = l.filter (fun c => !(isPyWs c)) := by
  induction l with
  | nil => simp
  | cons c cs ih =>
    by_cases hc : isPyWs c
    · rw [List.dropWhile_cons]
      simp [hc, ih]
    · rw [List.dropWhile_cons]
      simp [hc]

theorem reSubWsList_eq_filter (l : List Char) :
    reSubWsList l = l.filter (fun c => !(isPyWs c)) := by
  induction l using reSubWsList.induct with
  | case1 => simp [reSubWsList]
  | case2 c cs hc ih =>
    rw [reSubWsList]
    simp only [hc, if_true]
    rw [ih, filter_dropWhile_ws]
    simp [hc]
  | case3 c cs hc ih =>
    rw [reSubWsList]
    simp [hc, ih]

/-! ### Seed URL construction (`main.py`)

`urllib.parse.urlencode` percent-encodes the UTF-8 encoding of each key
and value with `quote_plus`, joins each pair with `=` and the pairs with
`&`.  Strings are therefore embedded at the byte level: a Python string
is its UTF-8 byte sequence, a `List Nat` of values `< 256`. -/

/-- The byte sequence of an ASCII string literal. -/
def asciiBytes (s : String) : List Nat :=
  s.data.map Char.toNat

/-- The bytes `quote_plus` leaves unencoded: ASCII alphanumerics and
`_`, `.`, `-`, `~` (the `safe` set of `urllib.parse.quote` with the
default `safe=''` used by `urlencode`). -/
def isSafeByte (b : Nat) : Bool :=
  decide ((48 ≤ b ∧ b ≤ 57) ∨ (65 ≤ b ∧ b ≤ 90) ∨ (97 ≤ b ∧ b ≤ 122) ∨
    b = 95 ∨ b = 46 ∨ b = 45 ∨ b = 126)

/-- ASCII code of the uppercase hexadecimal digit for `n < 16`. -/
def upperHexDigit (n : Nat) : Nat :=
  if n < 10 then 48 + n else 55 + n

/-- Encoding of a single byte by `quote_plus`: space becomes `+`, safe bytes pass
through, every other byte becomes `%XX` with uppercase hex digits. -/
def quoteByte (b : Nat) : List Nat :=
  if b = 32 then [43]
  else if isSafeByte b then [b]
  else [37, upperHexDigit (b / 16), upperHexDigit (b % 16)]

/-- Embedding of `urllib.parse.quote_plus` on a byte string. -/
def quote_plus (s : List Nat) : List Nat :=
  s.flatMap quoteByte

/-- Embedding of `urllib.parse.urlencode` on an association list of byte strings:
each pair is rendered `quote_plus(k)=quote_plus(v)` and the pairs are
joined with `&`, in order. -/
def urlencode (ps : List (List Nat × List Nat)) : List Nat :=
  List.intercalate [38] (ps.map (fun kv => quote_plus kv.1 ++ [61] ++ quote_plus kv.2))

/-- The `base_url` of `main.py`. -/
def base_url : List Nat :=
  asciiBytes "https://www.linkedin.com/jobs/search"

/-- The `params` dict of `main.py`, in insertion order. -/
def mainParams (title location : List Nat) : List (List Nat × List Nat) :=
  [(asciiBytes "keywords", title),
   (asciiBytes "location", location),
   (asciiBytes "trk", asciiBytes "public_jobs_jobs-search-bar_search-submit"),
   (asciiBytes "position", asciiBytes "1"),
   (asciiBytes "pageNum", asciiBytes "0")]

/-- The `encoded_url` of `main.py`: `urljoin(base_url, "")` returns
`base_url` unchanged (empty relative URL), to which `'?' + urlencode(params)`
is appended (`63` is `'?'`). -/
def encoded_url (title location : List Nat) : List Nat :=
  base_url ++ [63] ++ urlencode (mainParams title location)

/-! Decoding side, used to state that the query string carries the
original parameter values. -/

/-- Value of an ASCII hex digit. -/
def hexVal (c : Nat) : Option Nat :=
  if 48 ≤ c ∧ c ≤ 57 then some (c - 48)
  else if 65 ≤ c ∧ c ≤ 70 then some (c - 55)
  else if 97 ≤ c ∧ c ≤ 102 then some (c - 87)
  else none

/-- URL decoding (`urllib.parse.unquote_plus`): `+` becomes space, a
`%` followed by two hex digits becomes the denoted byte, everything
else passes through. -/
def unquote_plus : List Nat → List Nat
  | [] => []
  | b :: rest =>
    if b = 43 then 32 :: unquote_plus rest
    else if b = 37 then
      match rest with
      | h :: l :: rest2 =>
        match hexVal h, hexVal l with
        | some x, some y => (16 * x + y) :: unquote_plus rest2
        | _, _ => 37 :: unquote_plus (h :: l :: rest2)
      | [h] => 37 :: unquote_plus [h]
      | [] => [37]
    else b :: unquote_plus rest

/-- Splits a query string at every `&` (byte `38`), keeping empty
segments, as `urllib.parse.parse_qsl` does. -/
def splitAmp : List Nat → List (List Nat)
  | [] => [[]]
  | b :: rest =>
    if b = 38 then [] :: splitAmp rest
    else
      match splitAmp rest with
      | [] => [[b]]
      | seg :: segs => (b :: seg) :: segs

/-- Splits one `name=value` segment at its first `=` (byte `61`). -/
def splitEq : List Nat → List Nat × List Nat
  | [] => ([], [])
  | b :: rest =>
    if b = 61 then ([], rest)
    else ((b :: (splitEq rest).1), (splitEq rest).2)

/-- Parses a query string into its parameters with URL-decoded names
and values. -/
def parseQuery (q : List Nat) : List (List Nat × List Nat) :=
  (splitAmp q).map (fun seg =>
    (unquote_plus (splitEq seg).1, unquote_plus (splitEq seg).2))

theorem hexVal_upperHexDigit : ∀ n, n < 16 → hexVal (upperHexDigit n) = some n := by
  decide

set_option maxRecDepth 10000 in
theorem quoteByte_no_sep : ∀ b, b < 256 → 38 ∉ quoteByte b ∧ 61 ∉ quoteByte b := by
  decide

theorem unquote_plus_cons_plus (rest : List Nat) :
    unquote_plus (43 :: rest) = 32 :: unquote_plus rest := by
  match rest with
  | [] => simp [unquote_plus]
  | [h] => simp [unquote_plus]
  | h :: l :: t => simp [unquote_plus]

theorem unquote_plus_cons_ne (b : Nat) (rest : List Nat) (h43 : b ≠ 43) (h37 : b ≠ 37) :
    unquote_plus (b :: rest) = b :: unquote_plus rest := by
  match rest with
  | [] => simp [unquote_plus, h43, h37]
  | [h] => simp [unquote_plus, h43, h37]
  | h :: l :: t => simp [unquote_plus, h43, h37]

theorem unquote_plus_percent (h l : Nat) (rest : List Nat) (x y : Nat)
    (hx : hexVal h = some x) (hy : hexVal l = some y) :
    unquote_plus (37 :: h :: l :: rest) = (16 * x + y) :: unquote_plus rest := by
  simp [unquote_plus, hx, hy]

theorem unquote_quoteByte (b : Nat) (hb : b < 256) (rest : List Nat) :
    unquote_plus (quoteByte b ++ rest) = b :: unquote_plus rest := by
  unfold quoteByte
  by_cases h32 : b = 32
  · subst h32
    simp [unquote_plus_cons_plus]
  · by_cases hsafe : isSafeByte b
    · have hprop : (48 ≤ b ∧ b ≤ 57) ∨ (65 ≤ b ∧ b ≤ 90) ∨ (97 ≤ b ∧ b ≤ 122) ∨
          b = 95 ∨ b = 46 ∨ b = 45 ∨ b = 126 := by
        simpa [isSafeByte] using hsafe
      have h43 : b ≠ 43 := by omega
      have h37 : b ≠ 37 := by omega
      rw [if_neg h32, if_pos hsafe]
      simp only [List.cons_append, List.nil_append]
      exact unquote_plus_cons_ne b rest h43 h37
    · have hdiv : b / 16 < 16 := by omega
      have hmod : b % 16 < 16 := by omega
      have h1 := hexVal_upperHexDigit (b / 16) hdiv
      have h2 := hexVal_upperHexDigit (b % 16) hmod
      rw [if_neg h32, if_neg hsafe]
      simp only [List.cons_append, List.nil_append]
      rw [unquote_plus_percent _ _ _ _ _ h1 h2]
      have : 16 * (b / 16) + b % 16 = b := by omega
      rw [this]

theorem unquote_quote_append (s : List Nat) (hs : ∀ b ∈ s, b < 256) (rest : List Nat) :
    unquote_plus (quote_plus s ++ rest) = s ++ unquote_plus rest := by
  induction s with
  | nil => simp [quote_plus]
  | cons b t ih =>
    have hb : b < 256 := hs b (List.mem_cons_self b t)
    have ht : ∀ x ∈ t, x < 256 := fun x hx => hs x (List.mem_cons_of_mem b hx)
    simp only [quote_plus, List.flatMap_cons, List.append_assoc]
    rw [unquote_quoteByte b hb, ← quote_plus, ih ht]
    simp

theorem unquote_quote (s : List Nat) (hs : ∀ b ∈ s, b < 256) :
    unquote_plus (quote_plus s) = s := by
  have := unquote_quote_append s hs []
  simpa [unquote_plus] using this

theorem quote_plus_no_sep (s : List Nat) (hs : ∀ b ∈ s, b < 256) :
    38 ∉ quote_plus s ∧ 61 ∉ quote_plus s := by
  constructor
  · intro hmem
    rcases List.mem_flatMap.mp hmem with ⟨b, hb, hq⟩
    exact (quoteByte_no_sep b (hs b hb)).1 hq
  · intro hmem
    rcases List.mem_flatMap.mp hmem with ⟨b, hb, hq⟩
    exact (quoteByte_no_sep b (hs b hb)).2 hq

theorem splitAmp_no_sep (l : List Nat) (h : 38 ∉ l) : splitAmp l = [l] := by
  induction l with
  | nil => rfl
  | cons b t ih =>
    have hb : b ≠ 38 := fun hb => h (hb ▸ List.mem_cons_self b t)
    have ht : 38 ∉ t := fun hm => h (List.mem_cons_of_mem b hm)
    simp [splitAmp, hb, ih ht]

theorem splitAmp_append (l : List Nat) (h : 38 ∉ l) (r : List Nat) :
    splitAmp (l ++ 38 :: r) = l :: splitAmp r := by
  induction l with
  | nil => simp [splitAmp]
  | cons b t ih =>
    have hb : b ≠ 38 := fun hb => h (hb ▸ List.mem_cons_self b t)
    have ht : 38 ∉ t := fun hm => h (List.mem_cons_of_mem b hm)
    simp [splitAmp, hb, ih ht]

theorem splitEq_append (k : List Nat) (h : 61 ∉ k) (v : List Nat) :
    splitEq (k ++ 61 :: v) = (k, v) := by
  induction k with
  | nil => simp [splitEq]
  | cons b t ih =>
    have hb : b ≠ 61 := fun hb => h (hb ▸ List.mem_cons_self b t)
    have ht : 61 ∉ t := fun hm => h (List.mem_cons_of_mem b hm)
    simp [splitEq, hb, ih ht]

theorem no_amp_seg (k v : List Nat) (hk : ∀ b ∈ k, b < 256) (hv : ∀ b ∈ v, b < 256) :
    38 ∉ quote_plus k ++ 61 :: quote_plus v := by
  intro hmem
  rcases List.mem_append.mp hmem with h | h
  · exact (quote_plus_no_sep k hk).1 h
  · rcases List.mem_cons.mp h with h | h
    · exact absurd h (by decide)
    · exact (quote_plus_no_sep v hv).1 h

theorem parseSeg (k v : List Nat) (hk : ∀ b ∈ k, b < 256) (hv : ∀ b ∈ v, b < 256) :
    (unquote_plus (splitEq (quote_plus k ++ 61 :: quote_plus v)).1,
     unquote_plus (splitEq (quote_plus k ++ 61 :: quote_plus v)).2) = (k, v) := by
  rw [splitEq_append (quote_plus k) (quote_plus_no_sep k hk).2 (quote_plus v)]
  simp [unquote_quote k hk, unquote_quote v hv]

theorem parseQuery_cons (k v : List Nat) (hk : ∀ b ∈ k, b < 256) (hv : ∀ b ∈ v, b < 256)
    (r : List Nat) :
    parseQuery (quote_plus k ++ 61 :: (quote_plus v ++ 38 :: r)) =
      (k, v) :: parseQuery r := by
  have hshape : quote_plus k ++ 61 :: (quote_plus v ++ 38 :: r) =
      (quote_plus k ++ 61 :: quote_plus v) ++ 38 :: r := by
    simp
  rw [hshape]
  unfold parseQuery
  rw [splitAmp_append _ (no_amp_seg k v hk hv) r, List.map_cons]
  rw [parseSeg k v hk hv]

theorem parseQuery_last (k v : List Nat) (hk : ∀ b ∈ k, b < 256) (hv : ∀ b ∈ v, b < 256) :
    parseQuery (quote_plus k ++ 61 :: quote_plus v) = [(k, v)] := by
  unfold parseQuery
  rw [splitAmp_no_sep _ (no_amp_seg k v hk hv), List.map_cons, List.map_nil]
  rw [parseSeg k v hk hv]

/-- C1: for every pair of input strings (as UTF-8 byte sequences), the
seed URL built by `main` starts with
`https://www.linkedin.com/jobs/search?`, and parsing its query string
yields exactly the parameters `keywords` and `location` with URL-decoded
values equal to the inputs, together with the constant
`trk=public_jobs_jobs-search-bar_search-submit`, `position=1` and
`pageNum=0` parameters. -/
theorem seed_url_query (title location : List Nat)
    (ht : ∀ b ∈ title, b < 256) (hl : ∀ b ∈ location, b < 256) :
    encoded_url title location =
      asciiBytes "https://www.linkedin.com/jobs/search?" ++
        urlencode (mainParams title location) ∧
    parseQuery (urlencode (mainParams title location)) =
      [(asciiBytes "keywords", title),
       (asciiBytes "location", location),
       (asciiBytes "trk", asciiBytes "public_jobs_jobs-search-bar_search-submit"),
       (asciiBytes "position", asciiBytes "1"),
       (asciiBytes "pageNum", asciiBytes "0")] := by
  constructor
  · have h : asciiBytes "https://www.linkedin.com/jobs/search?" = base_url ++ [63] := by
      decide
    rw [encoded_url, h]
  · have hq : urlencode (mainParams title location) =
        quote_plus (asciiBytes "keywords") ++ 61 :: (quote_plus title ++ 38 ::
        (quote_plus (asciiBytes "location") ++ 61 :: (quote_plus location ++ 38 ::
        (quote_plus (asciiBytes "trk") ++ 61 ::
          (quote_plus (asciiBytes "public_jobs_jobs-search-bar_search-submit") ++ 38 ::
        (quote_plus (asciiBytes "position") ++ 61 :: (quote_plus (asciiBytes "1") ++ 38 ::
        (quote_plus (asciiBytes "pageNum") ++ 61 :: quote_plus (asciiBytes "0"))))))))) := by
      simp [urlencode, mainParams, List.intercalate, List.intersperse]
    rw [hq]
    rw [parseQuery_cons _ _ (by decide) ht]
    rw [parseQuery_cons _ _ (by decide) hl]
    rw [parseQuery_cons _ _ (by decide) (by decide)]
    rw [parseQuery_cons _ _ (by decide) (by decide)]
    rw [parseQuery_last _ _ (by decide) (by decide)]

/-- Witness for `seed_url_query` at concrete inputs
(`title = "C dev"`, `location = "Nice, FR"` as bytes). -/
theorem seed_url_query_witness :
    (∀ b ∈ asciiBytes "C dev", b < 256) ∧
    (∀ b ∈ asciiBytes "Nice, FR", b < 256) ∧
    (encoded_url (asciiBytes "C dev") (asciiBytes "Nice, FR") =
      asciiBytes "https://www.linkedin.com/jobs/search?" ++
        urlencode (mainParams (asciiBytes "C dev") (asciiBytes "Nice, FR")) ∧
    parseQuery (urlencode (mainParams (asciiBytes "C dev") (asciiBytes "Nice, FR"))) =
      [(asciiBytes "keywords", asciiBytes "C dev"),
       (asciiBytes "location", asciiBytes "Nice, FR"),
       (asciiBytes "trk", asciiBytes "public_jobs_jobs-search-bar_search-submit"),
       (asciiBytes "position", asciiBytes "1"),
       (asciiBytes "pageNum", asciiBytes "0")]) :=
  ⟨by decide, by decide,
   seed_url_query (asciiBytes "C dev") (asciiBytes "Nice, FR") (by decide) (by decide)⟩

/-! ### Request handlers (`routes.py`)

`default_handler` collects the hrefs of the anchors under the results
list and enqueues one labelled request per href.  `listing_handler`
waits for page load, reads three locators and pushes one record.  A
page is embedded as the data those awaited operations would return:
`loadOk` is whether `wait_for_load_state('load')` returns before the
timeout, and each `Option String` field is the outcome of the
corresponding `locator(...).text_content()` call (`none` means the
locator fails to resolve, which raises in the Python code). -/

/-- A crawl request, as built by `crawlee.Request.from_url(url, label=...)`. -/
structure CrawlRequest where
  url : String
  label : Option String
deriving DecidableEq

/-- Embedding of `crawlee.Request.from_url(url, label=label)`. -/
def Request.from_url (url : String) (label : Option String) : CrawlRequest :=
  ⟨url, label⟩

/-- One record pushed by `context.push_data`: an ordered list of
field-name/value pairs (the Python dict, in insertion order). -/
abbrev JobRecord := List (String × String)

/-- What a job-detail page yields to the awaited calls of
`listing_handler`. -/
structure PageSnapshot where
  loadOk : Bool
  titleText : Option String
  companyText : Option String
  postingTimeText : Option String

/-- A failure raised by a handler: the load wait timing out, or a
locator failing to resolve (identified by its CSS selector). -/
inductive HandlerFailure where
  | loadTimeout
  | locatorFailure (selector : String)
deriving DecidableEq

/-- The awaited operations of `listing_handler`, in program order;
every one of them is a suspension point of the coroutine. -/
inductive HEvent where
  | awaitLoadState
  | awaitTextContent (selector : String)
  | awaitPushData
deriving DecidableEq

/-- CSS locator of the job title in `listing_handler`. -/
def titleSelector : String :=
  "div.top-card-layout__entity-info h1.top-card-layout__title"

/-- CSS locator of the company name in `listing_handler`. -/
def companySelector : String :=
  "span.topcard__flavor a"

/-- CSS locator of the posting time in `listing_handler`. -/
def postingTimeSelector : String :=
  "div.topcard__flavor-row span.posted-time-ago__text"

/-- The `default_handler` of `routes.py`: given the hrefs collected by the
`ul.jobs-search__results-list a` locator evaluation, it calls
`context.add_requests` with one `Request.from_url(rec, label='job_listing')`
per href and pushes no data; the body contains no failing operation
after the hrefs are obtained. -/
def default_handler (hrefs : List String) :
    Except HandlerFailure (List CrawlRequest × List JobRecord) :=
  .ok (hrefs.map (fun rec => Request.from_url rec (some "job_listing")), [])

/-- The `listing_handler` of `routes.py`, instrumented with its trace of
awaited operations: waits for the `load` state, reads the three
locators in order, normalizes each text with
`re.sub(r'[\s\n]+', '', ...)` and pushes one record whose `url` field
is `context.request.loaded_url` (the final URL after redirects).  Any
failing await raises, aborting the handler at that point. -/
def listingRun (page : PageSnapshot) (loaded_url : String) :
    List HEvent × Except HandlerFailure (List JobRecord) :=
  if page.loadOk then
    match page.titleText with
    | none =>
      ([.awaitLoadState, .awaitTextContent titleSelector],
       .error (.locatorFailure titleSelector))
    | some job_title =>
      match page.companyText with
      | none =>
        ([.awaitLoadState, .awaitTextContent titleSelector,
          .awaitTextContent companySelector],
         .error (.locatorFailure companySelector))
      | some company_name =>
        match page.postingTimeText with
        | none =>
          ([.awaitLoadState, .awaitTextContent titleSelector,
            .awaitTextContent companySelector, .awaitTextContent postingTimeSelector],
           .error (.locatorFailure postingTimeSelector))
        | some time_of_posting =>
          ([.awaitLoadState, .awaitTextContent titleSelector,
            .awaitTextContent companySelector, .awaitTextContent postingTimeSelector,
            .awaitPushData],
           .ok [[("title", reSubWs job_title),
                 ("Company name", reSubWs company_name),
                 ("Time of posting", reSubWs time_of_posting),
                 ("url", loaded_url)]])
  else ([.awaitLoadState], .error .loadTimeout)

/-- The records a handler outcome has pushed to the result sink: a
raised failure aborts before `push_data`, so it contributes none. -/
def emittedRecords (out : Except HandlerFailure (List JobRecord)) : List JobRecord :=
  match out with
  | .ok recs => recs
  | .error _ => []

/-- Whether an awaited operation is one of the three locator text
reads. -/
def isTextRead : HEvent → Bool
  | .awaitTextContent _ => true
  | _ => false

/-- The entry point `main(title, location, data_name)` of `main.py`:
its outputs are the seed URL handed to the crawler and the name of the
CSV file the collected data is exported to. -/
structure MainRun where
  seedUrl : List Nat
  outputFile : String

/-- The entry point builds `encoded_url` from title and location only, and the
output file name `data_name ++ ".csv"` from `data_name` only. -/
def mainRun (title location : List Nat) (data_name : String) : MainRun :=
  { seedUrl := encoded_url title location,
    outputFile := data_name ++ ".csv" }

/-- The substitution `re.sub(r'[\s\n]+', '', s)` keeps exactly the non-whitespace
characters of `s`. -/
theorem reSubWs_eq_filter (s : String) :
    reSubWs s = ⟨s.data.filter (fun c => !(isPyWs c))⟩ := by
  unfold reSubWs
  rw [reSubWsList_eq_filter]

/-- C2: the normalization applied to the scraped fields replaces every
maximal whitespace run with the empty string, so each normalized field
is the concatenation of the non-whitespace runs of the raw string with
no separator; in particular `"Senior\n  Engineer"` normalizes to
`"SeniorEngineer"`. -/
theorem normalized_eq_run_concat :
    (∀ s : String, reSubWs s = ⟨(nonWsRuns s.data).flatten⟩) ∧
    reSubWs "Senior\n  Engineer" = "SeniorEngineer" := by
  constructor
  · intro s
    rw [reSubWs_eq_filter]
    unfold nonWsRuns
    rw [nonWsRunsAux_join s.data []]
    simp
  · rw [reSubWs_eq_filter]
    decide

/-- C3: for a results page whose collected anchor list is `hrefs`, the
discovery handler succeeds and enqueues exactly `hrefs.length`
requests; the request at each position `i` carries the label
`job_listing` and the href at position `i` as its URL. -/
theorem default_handler_enqueues (hrefs : List String) :
    ∃ reqs, default_handler hrefs = .ok (reqs, []) ∧
      reqs.length = hrefs.length ∧
      (∀ i : Nat, reqs[i]?.map CrawlRequest.label =
        hrefs[i]?.map (fun _ => some "job_listing")) ∧
      (∀ i : Nat, reqs[i]?.map CrawlRequest.url = hrefs[i]?) := by
  refine ⟨hrefs.map (fun rec => Request.from_url rec (some "job_listing")), rfl, by simp, ?_, ?_⟩
  · intro i
    cases hh : hrefs[i]? <;>
      simp [List.getElem?_map, Request.from_url, Function.comp, hh]
  · intro i
    cases hh : hrefs[i]? <;>
      simp [List.getElem?_map, Request.from_url, Function.comp, hh]

/-- C4: when the load wait and all three locator reads succeed, the
extraction handler pushes exactly one record, whose fields are exactly
`title`, `Company name`, `Time of posting` (the normalized texts, with
that verbatim spelling) and `url` (the request's final post-redirect
URL). -/
theorem listing_success (page : PageSnapshot) (loaded_url t c p : String)
    (hload : page.loadOk = true) (ht : page.titleText = some t)
    (hc : page.companyText = some c) (hp : page.postingTimeText = some p) :
    (listingRun page loaded_url).2 =
      .ok [[("title", reSubWs t), ("Company name", reSubWs c),
            ("Time of posting", reSubWs p), ("url", loaded_url)]] := by
  unfold listingRun
  simp [hload, ht, hc, hp]

/-- Witness for `listing_success` at a concrete page. -/
theorem listing_success_witness :
    (PageSnapshot.mk true (some "Senior\n  Engineer") (some "Acme Corp")
        (some "3 days ago")).loadOk = true ∧
    (listingRun
        (PageSnapshot.mk true (some "Senior\n  Engineer") (some "Acme Corp")
          (some "3 days ago")) "https://example.org/job/1").2 =
      .ok [[("title", reSubWs "Senior\n  Engineer"),
            ("Company name", reSubWs "Acme Corp"),
            ("Time of posting", reSubWs "3 days ago"),
            ("url", "https://example.org/job/1")]] :=
  ⟨rfl, listing_success _ _ _ _ _ rfl rfl rfl rfl⟩

/-- C5: if the load wait times out or any locator fails to resolve,
the extraction handler raises a failure and pushes no record for the
request: in particular no partial record and no record lacking a title
is emitted for it. -/
theorem listing_failure (page : PageSnapshot) (loaded_url : String)
    (h : page.loadOk = false ∨ page.titleText = none ∨ page.companyText = none ∨
      page.postingTimeText = none) :
    (∃ e, (listingRun page loaded_url).2 = .error e) ∧
      emittedRecords (listingRun page loaded_url).2 = [] := by
  obtain ⟨lo, tt, ct, pt⟩ := page
  cases lo <;> cases tt <;> cases ct <;> cases pt <;>
    simp_all [listingRun, emittedRecords]

/-- Witness for `listing_failure`: a page whose title locator fails. -/
theorem listing_failure_witness :
    ((PageSnapshot.mk true none (some "Acme Corp") (some "3 days ago")).loadOk = false ∨
      (PageSnapshot.mk true none (some "Acme Corp") (some "3 days ago")).titleText = none ∨
      (PageSnapshot.mk true none (some "Acme Corp") (some "3 days ago")).companyText = none ∨
      (PageSnapshot.mk true none (some "Acme Corp") (some "3 days ago")).postingTimeText = none) ∧
    ((∃ e, (listingRun (PageSnapshot.mk true none (some "Acme Corp") (some "3 days ago"))
        "https://example.org/job/2").2 = .error e) ∧
      emittedRecords (listingRun (PageSnapshot.mk true none (some "Acme Corp")
        (some "3 days ago")) "https://example.org/job/2").2 = []) :=
  ⟨Or.inr (Or.inl rfl), listing_failure _ _ (Or.inr (Or.inl rfl))⟩

/-- C6: on a results page with zero matching anchors the discovery
handler succeeds, enqueuing zero requests and pushing no data. -/
theorem default_handler_empty :
    default_handler [] = .ok ([], []) := rfl

/-- C7: in every invocation of the extraction handler, the prefix of
the awaited-operation trace before the first locator read is exactly
the load wait: no locator read is issued before the load wait
completes, and the load wait is the only suspension point before the
reads begin. -/
theorem load_wait_before_reads (page : PageSnapshot) (loaded_url : String) :
    ((listingRun page loaded_url).1).takeWhile (fun e => !(isTextRead e)) =
      [HEvent.awaitLoadState] := by
  obtain ⟨lo, tt, ct, pt⟩ := page
  cases lo <;> cases tt <;> cases ct <;> cases pt <;> rfl

/-- C8: the discovery handler's only output effect is the list of
enqueued requests; it pushes no record to the result sink, whatever the
anchor list is. -/
theorem default_handler_no_emission (hrefs : List String) :
    ∃ reqs, default_handler hrefs = .ok (reqs, ([] : List JobRecord)) :=
  ⟨_, rfl⟩

/-- The normalized text contains no whitespace character. -/
theorem reSubWs_no_ws (s : String) : ∀ c ∈ (reSubWs s).data, isPyWs c = false := by
  rw [reSubWs_eq_filter]
  intro c hc
  have hc2 : c ∈ s.data.filter (fun c => !(isPyWs c)) := hc
  rcases List.mem_filter.mp hc2 with ⟨-, h2⟩
  simpa using h2

/-- The whitespace normalization is idempotent. -/
theorem reSubWs_idem (s : String) : reSubWs (reSubWs s) = reSubWs s := by
  rw [reSubWs_eq_filter s, reSubWs_eq_filter]
  show String.mk (List.filter _ (List.filter _ s.data)) = String.mk (List.filter _ s.data)
  rw [List.filter_filter]
  simp

/-- C9: every emitted record holds, in its `title`, `Company name` and
`Time of posting` fields, a value with no whitespace character at all;
equivalently the whitespace normalization leaves such a value
unchanged. -/
theorem emitted_fields_ws_free (page : PageSnapshot) (loaded_url : String)
    (rec : JobRecord) (k v : String)
    (hrec : rec ∈ emittedRecords (listingRun page loaded_url).2)
    (hkv : (k, v) ∈ rec)
    (hk : k = "title" ∨ k = "Company name" ∨ k = "Time of posting") :
    (∀ c ∈ v.data, isPyWs c = false) ∧ reSubWs v = v := by
  obtain ⟨lo, tt, ct, pt⟩ := page
  cases lo <;> cases tt <;> cases ct <;> cases pt <;>
    simp_all [listingRun, emittedRecords]
  rcases hkv with ⟨rfl, rfl⟩ | ⟨rfl, rfl⟩ | ⟨rfl, rfl⟩ | ⟨rfl, rfl⟩
  · exact ⟨reSubWs_no_ws _, reSubWs_idem _⟩
  · exact ⟨reSubWs_no_ws _, reSubWs_idem _⟩
  · exact ⟨reSubWs_no_ws _, reSubWs_idem _⟩
  · simp at hk

/-- Witness for `emitted_fields_ws_free` at a concrete page and the
`title` field of its emitted record. -/
theorem emitted_fields_ws_free_witness :
    ([("title", reSubWs "Senior\n  Engineer"), ("Company name", reSubWs "Acme Corp"),
      ("Time of posting", reSubWs "3 days ago"), ("url", "https://example.org/job/3")] ∈
        emittedRecords (listingRun (PageSnapshot.mk true (some "Senior\n  Engineer")
          (some "Acme Corp") (some "3 days ago")) "https://example.org/job/3").2) ∧
    (("title", reSubWs "Senior\n  Engineer") ∈
      [("title", reSubWs "Senior\n  Engineer"), ("Company name", reSubWs "Acme Corp"),
       ("Time of posting", reSubWs "3 days ago"), ("url", "https://example.org/job/3")]) ∧
    ((∀ c ∈ (reSubWs "Senior\n  Engineer").data, isPyWs c = false) ∧
      reSubWs (reSubWs "Senior\n  Engineer") = reSubWs "Senior\n  Engineer") :=
  ⟨by simp [listingRun, emittedRecords], by simp,
   emitted_fields_ws_free
     (PageSnapshot.mk true (some "Senior\n  Engineer") (some "Acme Corp") (some "3 days ago"))
     "https://example.org/job/3"
     [("title", reSubWs "Senior\n  Engineer"), ("Company name", reSubWs "Acme Corp"),
      ("Time of posting", reSubWs "3 days ago"), ("url", "https://example.org/job/3")]
     "title" (reSubWs "Senior\n  Engineer")
     (by simp [listingRun, emittedRecords]) (by simp) (Or.inl rfl)⟩

/-- C10: `data_name` influences only the name of the written CSV file:
two runs with the same title and location build the same seed URL
whatever their `data_name` values are, and the output file is
`data_name ++ ".csv"`.  The discovery and extraction handlers
(`default_handler`, `listingRun`) take no `data_name` input at all. -/
theorem data_name_noninterference (title location : List Nat) (d1 d2 : String) :
    (mainRun title location d1).seedUrl = (mainRun title location d2).seedUrl ∧
    (mainRun title location d1).seedUrl = encoded_url title location ∧
    (mainRun title location d1).outputFile = d1 ++ ".csv" :=
  ⟨rfl, rfl, rfl⟩
